import Mathlib

/-!
Shallow embedding of the drone ground-station control loop
(modules/heartbeat/heartbeat_receiver.py, modules/telemetry/telemetry.py,
modules/command/command.py, modules/command/command_worker.py).

Machine floats of the Python source are modelled as exact rationals (`ℚ`);
`math.pi` is modelled by the exact rational value of the IEEE-754 double
`math.pi`, namely 884279719003555 / 2^48.
-/

namespace Bootcamp

/-! ### Heartbeat receiver (modules/heartbeat/heartbeat_receiver.py) -/

/-- Constant `DISCONNECT_THRESHOLD` from heartbeat_receiver.py: number of missed
heartbeats before considered disconnected. -/
def DISCONNECT_THRESHOLD : ℕ := 5

/-- Outcome of one `connection.recv_match(type="HEARTBEAT", ...)` call inside
`HeartbeatReceiver.run`: either a HEARTBEAT message arrives, or the call
returns `None` (timeout), or it raises an exception (link error).  The type
filter of `recv_match` means a non-`None` result is always a HEARTBEAT, which
the source double-checks with `msg.get_type()`. -/
inductive RecvOutcome where
  | heartbeat : RecvOutcome
  | nothing : RecvOutcome
  | error : RecvOutcome
deriving DecidableEq, Repr

/-- Mutable state of a `HeartbeatReceiver` object: `__missed_heartbeats` and
`__is_connected`. -/
structure HbState where
  missed_heartbeats : ℕ
  is_connected : Bool
deriving DecidableEq, Repr

/-- Constructor `HeartbeatReceiver.__init__`: `missed_heartbeats = 0`, `is_connected = False`. -/
def hbInit : HbState := ⟨0, false⟩

/-- State update performed by one call of `HeartbeatReceiver.run`, by outcome
of the receive.  On a heartbeat: counter reset to 0, connected.  On a timeout
(`msg is None`) or on an exception, the counter is incremented and the
threshold check is applied. -/
def hbStep (s : HbState) (e : RecvOutcome) : HbState :=
  match e with
  | .heartbeat => ⟨0, true⟩
  | .nothing =>
      let m := s.missed_heartbeats + 1
      ⟨m, if DISCONNECT_THRESHOLD ≤ m then false else s.is_connected⟩
  | .error =>
      let m := s.missed_heartbeats + 1
      ⟨m, if DISCONNECT_THRESHOLD ≤ m then false else s.is_connected⟩

/-- Method `HeartbeatReceiver.run`: updates the state and returns
`(True, "connected"/"disconnected")` from the post-update state. -/
def hbRun (s : HbState) (e : RecvOutcome) : HbState × (Bool × String) :=
  let s' := hbStep s e
  (s', (true, if s'.is_connected then "connected" else "disconnected"))

/-- State after a sequence of `run` calls starting from state `s`. -/
def hbRunAll (s : HbState) (es : List RecvOutcome) : HbState :=
  es.foldl hbStep s

/-! ### Command decision (modules/command/command.py) -/

/-- Exact rational value of the IEEE-754 double `math.pi`. -/
def piQ : ℚ := 884279719003555 / 281474976710656

/-- Constant `HEIGHT_TOLERANCE` (meters). -/
def HEIGHT_TOLERANCE : ℚ := 1 / 2

/-- Constant `ANGLE_TOLERANCE` (degrees). -/
def ANGLE_TOLERANCE : ℚ := 5

/-- Constant `Z_SPEED` (m/s). -/
def Z_SPEED : ℚ := 1

/-- Constant `TURNING_SPEED` (deg/s). -/
def TURNING_SPEED : ℚ := 5

theorem piQ_pos : 0 < piQ := by norm_num [piQ]

/-- One iteration of the body of `while delta_yaw > math.pi`. -/
def stepDown (d : ℚ) : ℚ := d - 2 * piQ

/-- One iteration of the body of `while delta_yaw < -math.pi`. -/
def stepUp (d : ℚ) : ℚ := d + 2 * piQ

/-- The loop `while delta_yaw > math.pi: delta_yaw -= 2 * math.pi`. -/
def normDown (d : ℚ) : ℚ :=
  if piQ < d then normDown (d - 2 * piQ) else d
termination_by (⌈(d - piQ) / (2 * piQ)⌉).toNat
decreasing_by
  have hpi : (0:ℚ) < 2 * piQ := by norm_num [piQ]
  have key : (d - 2 * piQ - piQ) / (2 * piQ) = (d - piQ) / (2 * piQ) - 1 := by
    field_simp
    ring
  rw [key]
  have hq : (0:ℚ) < (d - piQ) / (2 * piQ) := div_pos (by linarith) hpi
  rw [Int.ceil_sub_one]
  have h1 : 0 < ⌈(d - piQ) / (2 * piQ)⌉ := Int.ceil_pos.mpr hq
  omega

/-- The loop `while delta_yaw < -math.pi: delta_yaw += 2 * math.pi`. -/
def normUp (d : ℚ) : ℚ :=
  if d < -piQ then normUp (d + 2 * piQ) else d
termination_by (⌈(-piQ - d) / (2 * piQ)⌉).toNat
decreasing_by
  have hpi : (0:ℚ) < 2 * piQ := by norm_num [piQ]
  have key : (-piQ - (d + 2 * piQ)) / (2 * piQ) = (-piQ - d) / (2 * piQ) - 1 := by
    field_simp
    ring
  rw [key]
  have hq : (0:ℚ) < (-piQ - d) / (2 * piQ) := div_pos (by linarith) hpi
  rw [Int.ceil_sub_one]
  have h1 : 0 < ⌈(-piQ - d) / (2 * piQ)⌉ := Int.ceil_pos.mpr hq
  omega

/-- The pair of normalization loops applied to the raw `delta_yaw`
(command.py lines 164-168). -/
def normalizeYaw (d : ℚ) : ℚ := normUp (normDown d)

/-- Conversion `math.radians`: degrees to radians. -/
def radiansQ (x : ℚ) : ℚ := x * piQ / 180

/-- Conversion `math.degrees`: radians to degrees. -/
def degreesQ (x : ℚ) : ℚ := x * 180 / piQ

/-- Round to the nearest integer, ties to even: the rounding IEEE 754
applies to an exact significand. -/
def roundNearestEven (m : ℚ) : ℤ :=
  if m - ⌊m⌋ < 1 / 2 then ⌊m⌋
  else if 1 / 2 < m - ⌊m⌋ then ⌊m⌋ + 1
  else if ⌊m⌋ % 2 = 0 then ⌊m⌋ else ⌊m⌋ + 1

/-- Round a rational to the nearest IEEE 754 double-precision value (53-bit
significand, round-to-nearest ties-to-even), ignoring overflow and
subnormals, which are out of range for every magnitude appearing in this
development.  The source's `delta_yaw` is such a double, so each float
operation on it rounds its exact result through this function. -/
def roundDouble (x : ℚ) : ℚ :=
  if x = 0 then 0
  else
    (if x < 0 then -1 else 1) * roundNearestEven (|x| / 2 ^ (Int.log 2 |x| - 52)) *
      2 ^ (Int.log 2 |x| - 52)

/-- One iteration of the loop body `delta_yaw -= 2 * math.pi` as the source
executes it on IEEE doubles: the exact difference is rounded back to a
double.  (The product `2 * math.pi` is itself exact.) -/
def fstepDown (d : ℚ) : ℚ := roundDouble (d - 2 * piQ)

/-- One iteration of the loop body `delta_yaw += 2 * math.pi` on IEEE
doubles. -/
def fstepUp (d : ℚ) : ℚ := roundDouble (d + 2 * piQ)

/-- Struct `TelemetryData` from modules/telemetry/telemetry.py: all fields
are optional (`None` in Python). -/
structure TelemetryData where
  time_since_boot : Option ℕ := none
  x : Option ℚ := none
  y : Option ℚ := none
  z : Option ℚ := none
  x_velocity : Option ℚ := none
  y_velocity : Option ℚ := none
  z_velocity : Option ℚ := none
  roll : Option ℚ := none
  pitch : Option ℚ := none
  yaw : Option ℚ := none
  roll_speed : Option ℚ := none
  pitch_speed : Option ℚ := none
  yaw_speed : Option ℚ := none
deriving DecidableEq, Repr

/-- 3D vector struct `Position` from command.py. -/
structure Position where
  x : ℚ
  y : ℚ
  z : ℚ
deriving DecidableEq, Repr

/-- One outbound MAVLink command, i.e. one call of
`connection.mav.command_long_send(...)` with its positional arguments. -/
structure MavCmd where
  target_system : ℕ
  target_component : ℕ
  command : ℕ
  confirmation : ℕ
  param1 : ℚ
  param2 : ℚ
  param3 : ℚ
  param4 : ℚ
  param5 : ℚ
  param6 : ℚ
  param7 : ℚ
deriving DecidableEq, Repr

/-- Value of `mavutil.mavlink.MAV_CMD_CONDITION_CHANGE_ALT`. -/
def MAV_CMD_CONDITION_CHANGE_ALT : ℕ := 113

/-- Value of `mavutil.mavlink.MAV_CMD_CONDITION_YAW`. -/
def MAV_CMD_CONDITION_YAW : ℕ := 115

/-- The altitude-change command sent by `Command.run` (command.py lines
131-144): fixed vertical rate `Z_SPEED`, target altitude `target.z`. -/
def altitudeCmd (target : Position) : MavCmd :=
  ⟨1, 0, MAV_CMD_CONDITION_CHANGE_ALT, 0, Z_SPEED, 0, 0, 0, 0, 0, target.z⟩

/-- The yaw-change command sent by `Command.run` (command.py lines 175-188)
for a normalized yaw delta of `deg` degrees with direction `dir`. -/
def yawCmd (deg dir : ℚ) : MavCmd :=
  ⟨1, 0, MAV_CMD_CONDITION_YAW, 0, |deg|, TURNING_SPEED, dir, 1, 0, 0, 0⟩

/-- Mutable state of a `Command` object: the velocity accumulator
(`__total_velocity_x/y/z` and `__sample_count`). -/
structure CommandState where
  total_velocity_x : ℚ := 0
  total_velocity_y : ℚ := 0
  total_velocity_z : ℚ := 0
  sample_count : ℕ := 0
deriving DecidableEq, Repr

/-- Return value of `Command.run`, abstracting the Python f-string payloads
`"CHANGE ALTITUDE: \x7bdelta_z\x7d"` and `"CHANGE YAW: \x7bdelta_yaw_deg\x7d"`. -/
inductive CmdStatus where
  | changeAltitude (delta_z : ℚ) : CmdStatus
  | changeYaw (delta_yaw_deg : ℚ) : CmdStatus
deriving DecidableEq, Repr

/-- Result of one `Command.run` call: updated accumulator state, the list of
commands sent on the connection during the call, and the returned
`(success, status)` tuple. -/
structure RunResult where
  state : CommandState
  cmds : List MavCmd
  success : Bool
  status : Option CmdStatus
deriving DecidableEq, Repr

/-- Velocity-accumulator update at the top of `Command.run` (lines 112-126):
performed only when all three velocity components are present. -/
def velocityUpdate (st : CommandState) (td : TelemetryData) : CommandState :=
  match td.x_velocity, td.y_velocity, td.z_velocity with
  | some vx, some vy, some vz =>
      ⟨st.total_velocity_x + vx, st.total_velocity_y + vy,
       st.total_velocity_z + vz, st.sample_count + 1⟩
  | _, _, _ => st

/-- The yaw branch of `Command.run` (lines 166-192) applied to the raw yaw
delta `desired_yaw - yaw`: normalize, convert to degrees, and send a yaw
command when the magnitude exceeds `ANGLE_TOLERANCE`. -/
def yawDecision (delta_raw : ℚ) : Option (MavCmd × ℚ) :=
  let delta_yaw := normalizeYaw delta_raw
  let delta_yaw_deg := degreesQ delta_yaw
  if ANGLE_TOLERANCE < |delta_yaw_deg| then
    let direction : ℚ := if 0 ≤ delta_yaw_deg then 1 else -1
    some (yawCmd delta_yaw_deg direction, delta_yaw_deg)
  else
    none

/-- The yaw-check tail of `Command.run` (command.py lines 148-195): reached
only when no altitude command was sent. -/
def commandRunYaw (atan2 : ℚ → ℚ → ℚ) (target : Position) (st : CommandState)
    (td : TelemetryData) : RunResult :=
  match td.x, td.y, td.yaw with
  | some x, some y, some yaw =>
      let dx := target.x - x
      let dy := target.y - y
      let desired_yaw := atan2 dy dx
      match yawDecision (desired_yaw - yaw) with
      | some (cmd, deg) => ⟨st, [cmd], true, some (.changeYaw deg)⟩
      | none => ⟨st, [], false, none⟩
  | _, _, _ => ⟨st, [], false, none⟩

/-- Method `Command.run` (command.py lines 91-195).  `atan2` abstracts
`math.atan2`, the only transcendental library call; everything else is exact
rational arithmetic.  `target` is the fixed target position of the object. -/
def commandRun (atan2 : ℚ → ℚ → ℚ) (target : Position) (st : CommandState)
    (telemetry_data : Option TelemetryData) : RunResult :=
  match telemetry_data with
  | none => ⟨st, [], false, none⟩
  | some td =>
    let st' := velocityUpdate st td
    match td.z with
    | some z =>
        let delta_z := target.z - z
        if HEIGHT_TOLERANCE < |delta_z| then
          ⟨st', [altitudeCmd target], true, some (.changeAltitude delta_z)⟩
        else
          commandRunYaw atan2 target st' td
    | none => commandRunYaw atan2 target st' td

/-! ### Telemetry fusion (modules/telemetry/telemetry.py) -/

/-- An `ATTITUDE` (30) MAVLink message: the fields read by `Telemetry.run`. -/
structure AttitudeMsg where
  time_boot_ms : ℕ
  roll : ℚ
  pitch : ℚ
  yaw : ℚ
  rollspeed : ℚ
  pitchspeed : ℚ
  yawspeed : ℚ
deriving DecidableEq, Repr

/-- A `LOCAL_POSITION_NED` (32) MAVLink message: the fields read by
`Telemetry.run`. -/
structure PositionMsg where
  time_boot_ms : ℕ
  x : ℚ
  y : ℚ
  z : ℚ
  vx : ℚ
  vy : ℚ
  vz : ℚ
deriving DecidableEq, Repr

/-- A message returned by `recv_match(type=["ATTITUDE", "LOCAL_POSITION_NED"])`. -/
inductive TlmMsg where
  | attitude (m : AttitudeMsg) : TlmMsg
  | position (m : PositionMsg) : TlmMsg
deriving DecidableEq, Repr

/-- Whether a message is an `ATTITUDE` message. -/
def TlmMsg.isAttitude : TlmMsg → Bool
  | .attitude _ => true
  | .position _ => false

/-- Whether a message is a `LOCAL_POSITION_NED` message. -/
def TlmMsg.isPosition : TlmMsg → Bool
  | .attitude _ => false
  | .position _ => true

/-- The `TelemetryData(...)` constructed by `Telemetry.run` (lines 161-179)
from the filled attitude and position slots and the most recent timestamp. -/
def buildTelemetry (a : AttitudeMsg) (p : PositionMsg) (t : ℕ) : TelemetryData :=
  { time_since_boot := some t
    x := some p.x
    y := some p.y
    z := some p.z
    x_velocity := some p.vx
    y_velocity := some p.vy
    z_velocity := some p.vz
    roll := some a.roll
    pitch := some a.pitch
    yaw := some a.yaw
    roll_speed := some a.rollspeed
    pitch_speed := some a.pitchspeed
    yaw_speed := some a.yawspeed }

/-- The receive loop of `Telemetry.run` (lines 136-188), with the call-local
slots `attitude_data` / `position_data` and timestamps `attitude_time` /
`position_time` as explicit parameters.  The list `msgs` holds the messages
delivered by the link before the time budget runs out, in arrival order; the
end of the list is the timeout.  After storing each message the loop checks
whether both slots are filled and, if so, returns the fused snapshot with the
most recent of the two timestamps. -/
def telemetryRunAux (att : Option AttitudeMsg) (attitude_time : ℕ)
    (pos : Option PositionMsg) (position_time : ℕ) :
    List TlmMsg → Option TelemetryData
  | [] => none
  | .attitude m :: rest =>
    match pos with
    | some p => some (buildTelemetry m p (max m.time_boot_ms position_time))
    | none => telemetryRunAux (some m) m.time_boot_ms none position_time rest
  | .position m :: rest =>
    match att with
    | some a => some (buildTelemetry a m (max attitude_time m.time_boot_ms))
    | none => telemetryRunAux none attitude_time (some m) m.time_boot_ms rest

/-- Method `Telemetry.run`: every call starts with both slots empty and both
timestamps 0 (lines 131-134); on timeout it returns no snapshot. -/
def telemetryRun (msgs : List TlmMsg) : Option TelemetryData :=
  telemetryRunAux none 0 none 0 msgs

/-! ### Command worker (modules/command/command_worker.py) -/

/-- The main loop of `command_worker` (lines 68-96) over the sequence of
items dequeued from the input queue, with the controller never requesting
exit.  `none` is the sentinel value: observing it breaks the loop, so no
later item is dequeued.  Returns the list of commands sent on the connection
and the list of statuses put on the output queue (a status is emitted only
when `run` returns success with a non-`None` status). -/
def commandWorkerLoop (atan2 : ℚ → ℚ → ℚ) (target : Position)
    (st : CommandState) : List (Option TelemetryData) → List MavCmd × List CmdStatus
  | [] => ([], [])
  | none :: _ => ([], [])
  | some td :: rest =>
      let r := commandRun atan2 target st (some td)
      let tail := commandWorkerLoop atan2 target r.state rest
      (r.cmds ++ tail.1,
       (match r.success, r.status with
        | true, some s => [s]
        | _, _ => []) ++ tail.2)

/-! ### Theorems: heartbeat receiver -/

/-- The connectivity invariant claimed by the spec: Disconnected iff the
missed-heartbeat count has reached the threshold. -/
def hbGood (s : HbState) : Prop :=
  s.is_connected = false ↔ DISCONNECT_THRESHOLD ≤ s.missed_heartbeats

theorem hbGood_step (s : HbState) (e : RecvOutcome) (h : hbGood s) :
    hbGood (hbStep s e) := by
  obtain ⟨m, c⟩ := s
  cases e <;> simp only [hbGood, hbStep, DISCONNECT_THRESHOLD] at h ⊢
  · simp
  · split_ifs with h5
    · simpa using h5
    · constructor
      · intro hc
        exact absurd (h.mp hc) (by omega)
      · intro h5'
        omega
  · split_ifs with h5
    · simpa using h5
    · constructor
      · intro hc
        exact absurd (h.mp hc) (by omega)
      · intro h5'
        omega

theorem hbGood_foldl (es : List RecvOutcome) (s : HbState) (h : hbGood s) :
    hbGood (List.foldl hbStep s es) := by
  induction es generalizing s with
  | nil => exact h
  | cons e rest ih => exact ih _ (hbGood_step s e h)

theorem hbStep_nothing (m : ℕ) (c : Bool) :
    hbStep ⟨m, c⟩ .nothing = ⟨m + 1, if DISCONNECT_THRESHOLD ≤ m + 1 then false else c⟩ :=
  rfl

/-- Effect of `n` consecutive missed receives starting from an arbitrary
state. -/
theorem hb_miss_run (n m : ℕ) (c : Bool) :
    List.foldl hbStep ⟨m, c⟩ (List.replicate n .nothing) =
      ⟨m + n, if n = 0 then c else if DISCONNECT_THRESHOLD ≤ m + n then false else c⟩ := by
  induction n with
  | zero => rfl
  | succ k ih =>
    rw [List.replicate_succ', List.foldl_append, ih, List.foldl_cons, List.foldl_nil,
      hbStep_nothing]
    simp only [DISCONNECT_THRESHOLD, HbState.mk.injEq] at ih ⊢
    refine ⟨by omega, ?_⟩
    by_cases h1 : 5 ≤ m + k + 1
    · rw [if_pos h1, if_neg (by omega : ¬ k + 1 = 0), if_pos (by omega : 5 ≤ m + (k + 1))]
    · rw [if_neg h1, if_neg (by omega : ¬ k + 1 = 0), if_neg (by omega : ¬ 5 ≤ m + (k + 1))]
      rcases Nat.eq_zero_or_pos k with hk | hk
      · subst hk
        simp
      · rw [if_neg (by omega : ¬ k = 0), if_neg (by omega : ¬ 5 ≤ m + k)]

/-- C2 counterexample: in the state reached after zero `run` calls (the state
produced by `HeartbeatReceiver.__init__`), the receiver is Disconnected
(`is_connected = False`) while the missed-heartbeat count is `0`, below the
threshold — so the claimed "if and only if" fails at the initial state. -/
theorem c2_initial_state_violates_iff :
    ¬ ((hbRunAll hbInit []).is_connected = false ↔
        DISCONNECT_THRESHOLD ≤ (hbRunAll hbInit []).missed_heartbeats) := by
  decide

/-- C2 (amended): in every state of `HeartbeatReceiver` reachable after a
sequence of `run` calls at least one of which received a heartbeat, the
connectivity state is Disconnected if and only if the count of consecutive
missed heartbeats is at least the disconnect threshold.  (Before the first
received heartbeat the state is Disconnected regardless of the count, so the
unrestricted "iff" fails there.) -/
theorem c2_disconnected_iff_threshold (es : List RecvOutcome)
    (h : RecvOutcome.heartbeat ∈ es) :
    ((hbRunAll hbInit es).is_connected = false ↔
      DISCONNECT_THRESHOLD ≤ (hbRunAll hbInit es).missed_heartbeats) := by
  obtain ⟨l1, l2, rfl⟩ := List.append_of_mem h
  have : hbRunAll hbInit (l1 ++ .heartbeat :: l2) =
      List.foldl hbStep ⟨0, true⟩ l2 := by
    simp [hbRunAll, List.foldl_append, hbStep]
  rw [this]
  exact hbGood_foldl l2 ⟨0, true⟩ (by simp [hbGood, DISCONNECT_THRESHOLD])

/-- Witness for the amended C2 at a concrete call sequence. -/
theorem c2_disconnected_iff_threshold_witness :
    RecvOutcome.heartbeat ∈ [RecvOutcome.heartbeat, RecvOutcome.nothing] ∧
    ((hbRunAll hbInit [RecvOutcome.heartbeat, RecvOutcome.nothing]).is_connected = false ↔
      DISCONNECT_THRESHOLD ≤
        (hbRunAll hbInit [RecvOutcome.heartbeat, RecvOutcome.nothing]).missed_heartbeats) :=
  ⟨by decide, c2_disconnected_iff_threshold _ (by decide)⟩

/-- C3: a `run` call that receives a heartbeat resets the missed-counter to 0
and sets the state to Connected regardless of the prior state; a call that
misses increments the counter by one; starting from a just-connected state,
after `n < DISCONNECT_THRESHOLD` consecutive misses the state is still
Connected with counter `n`, and after `n ≥ DISCONNECT_THRESHOLD` misses it is
Disconnected (so it becomes Disconnected at exactly the threshold and stays
Disconnected on further misses); and every call returns the current
(post-update) connection status. -/
theorem c3_heartbeat_state_machine :
    (∀ s : HbState, hbStep s .heartbeat = ⟨0, true⟩) ∧
    (∀ s : HbState, (hbStep s .nothing).missed_heartbeats = s.missed_heartbeats + 1) ∧
    (∀ n : ℕ, (hbRunAll ⟨0, true⟩ (List.replicate n .nothing)).missed_heartbeats = n) ∧
    (∀ n : ℕ, n < DISCONNECT_THRESHOLD →
      (hbRunAll ⟨0, true⟩ (List.replicate n .nothing)).is_connected = true) ∧
    (∀ n : ℕ, DISCONNECT_THRESHOLD ≤ n →
      (hbRunAll ⟨0, true⟩ (List.replicate n .nothing)).is_connected = false) ∧
    (∀ (s : HbState) (e : RecvOutcome),
      hbRun s e = (hbStep s e,
        (true, if (hbStep s e).is_connected then "connected" else "disconnected"))) := by
  refine ⟨fun s => rfl, fun s => rfl, ?_, ?_, ?_, fun s e => rfl⟩
  · intro n
    rw [hbRunAll, hb_miss_run]
    simp
  · intro n hn
    rw [hbRunAll, hb_miss_run]
    rcases Nat.eq_zero_or_pos n with h0 | h0
    · simp [h0]
    · rw [if_neg (by omega), if_neg (by simpa [DISCONNECT_THRESHOLD] using hn)]
  · intro n hn
    rw [hbRunAll, hb_miss_run, if_neg (by simp [DISCONNECT_THRESHOLD] at hn; omega),
      if_pos (by simpa using hn)]

/-- Witness for C3 at the threshold boundary: 4 misses keep the state
Connected, 5 misses disconnect it. -/
theorem c3_heartbeat_state_machine_witness :
    (hbRunAll ⟨0, true⟩ (List.replicate 4 .nothing)).is_connected = true ∧
    (hbRunAll ⟨0, true⟩ (List.replicate 5 .nothing)).is_connected = false :=
  ⟨c3_heartbeat_state_machine.2.2.2.1 4 (by decide),
   c3_heartbeat_state_machine.2.2.2.2.1 5 (by decide)⟩

/-- C8: a link-level error raised inside `HeartbeatReceiver.run`'s receive is
caught and has exactly the same effect on the receiver state as a timeout
(counter incremented by one, same threshold check), and the call still
returns normally with the same `(True, status)` result — the error is never
propagated. -/
theorem c8_error_same_as_timeout :
    ∀ s : HbState,
      hbStep s .error = hbStep s .nothing ∧
      hbRun s .error = hbRun s .nothing ∧
      (hbRun s .error).2.1 = true :=
  fun _ => ⟨rfl, rfl, rfl⟩

/-! ### Theorems: yaw normalization -/

theorem normDown_le (d : ℚ) : normDown d ≤ piQ := by
  induction d using normDown.induct with
  | case1 d h ih =>
    rw [normDown, if_pos h]
    exact ih
  | case2 d h =>
    rw [normDown, if_neg h]
    exact le_of_not_lt h

theorem normUp_ge (d : ℚ) : -piQ ≤ normUp d := by
  induction d using normUp.induct with
  | case1 d h ih =>
    rw [normUp, if_pos h]
    exact ih
  | case2 d h =>
    rw [normUp, if_neg h]
    exact le_of_not_lt h

theorem normUp_le (d : ℚ) : d ≤ piQ → normUp d ≤ piQ := by
  induction d using normUp.induct with
  | case1 d h ih =>
    intro _
    rw [normUp, if_pos h]
    have hpi : 0 < piQ := piQ_pos
    exact ih (by linarith)
  | case2 d h =>
    intro hd
    rw [normUp, if_neg h]
    exact hd

/-- C4 counterexample: the raw yaw delta `-piQ` (reachable as bearing `0`
with current yaw `piQ`) satisfies neither loop guard, so the normalization
leaves it at `-piQ`, which is NOT in the half-open interval `(-piQ, piQ]`. -/
theorem c4_minus_pi_outside_halfopen :
    ¬ (-piQ < normalizeYaw (-piQ) ∧ normalizeYaw (-piQ) ≤ piQ) := by
  have h1 : normalizeYaw (-piQ) = -piQ := by
    rw [normalizeYaw, normDown, if_neg (by norm_num [piQ] : ¬ piQ < -piQ), normUp,
      if_neg (lt_irrefl (-piQ))]
  rw [h1]
  simp

/-- C4 (amended): the repeated `±2π` adjustment normalizes every raw yaw
delta into the CLOSED interval `[-π, π]` (the endpoint `-π` is reachable, so
the interval is not half-open); a raw delta of 200 degrees normalizes to
exactly −160 degrees and yields a yaw command with direction −1 and magnitude
`|delta_yaw_deg|` = 160; and in general an issued yaw command's direction is
+1 exactly when the normalized delta in degrees is non-negative. -/
theorem c4_yaw_normalization :
    (∀ d : ℚ, -piQ ≤ normalizeYaw d ∧ normalizeYaw d ≤ piQ) ∧
    degreesQ (normalizeYaw (radiansQ 200)) = -160 ∧
    yawDecision (radiansQ 200) =
      some (⟨1, 0, MAV_CMD_CONDITION_YAW, 0, 160, TURNING_SPEED, -1, 1, 0, 0, 0⟩, -160) ∧
    (∀ (d : ℚ) (cmd : MavCmd) (deg : ℚ), yawDecision d = some (cmd, deg) →
      deg = degreesQ (normalizeYaw d) ∧ cmd.param1 = |deg| ∧
      (cmd.param3 = 1 ↔ 0 ≤ degreesQ (normalizeYaw d))) := by
  have h200 : normalizeYaw (radiansQ 200) = radiansQ 200 - 2 * piQ := by
    rw [normalizeYaw, normDown, if_pos (by norm_num [radiansQ, piQ]), normDown,
      if_neg (by norm_num [radiansQ, piQ]), normUp, if_neg (by norm_num [radiansQ, piQ])]
  have hdeg : degreesQ (normalizeYaw (radiansQ 200)) = -160 := by
    rw [h200]
    norm_num [degreesQ, radiansQ, piQ]
  refine ⟨fun d => ⟨normUp_ge _, normUp_le _ (normDown_le d)⟩, hdeg, ?_, ?_⟩
  · rw [yawDecision]
    rw [hdeg]
    norm_num [ANGLE_TOLERANCE, yawCmd]
  · intro d cmd deg h
    rw [yawDecision] at h
    by_cases htol : ANGLE_TOLERANCE < |degreesQ (normalizeYaw d)|
    · rw [if_pos htol] at h
      by_cases hsgn : 0 ≤ degreesQ (normalizeYaw d)
      · rw [if_pos hsgn] at h
        simp only [Option.some.injEq, Prod.mk.injEq] at h
        obtain ⟨hcmd, hdeg'⟩ := h
        subst hdeg'
        subst hcmd
        exact ⟨rfl, rfl, by simp [yawCmd, hsgn]⟩
      · rw [if_neg hsgn] at h
        simp only [Option.some.injEq, Prod.mk.injEq] at h
        obtain ⟨hcmd, hdeg'⟩ := h
        subst hdeg'
        subst hcmd
        exact ⟨rfl, rfl,
          ⟨fun habs => absurd habs (by norm_num [yawCmd]), fun h0 => absurd h0 hsgn⟩⟩
    · rw [if_neg htol] at h
      exact absurd h (by simp)

/-- Witness for the general direction-sign clause of the amended C4, at the
concrete yaw command produced for a raw delta of 200 degrees. -/
theorem c4_yaw_normalization_witness :
    (-160 : ℚ) = degreesQ (normalizeYaw (radiansQ 200)) ∧
    (⟨1, 0, MAV_CMD_CONDITION_YAW, 0, 160, TURNING_SPEED, -1, 1, 0, 0, 0⟩ : MavCmd).param1 =
      |(-160 : ℚ)| ∧
    ((⟨1, 0, MAV_CMD_CONDITION_YAW, 0, 160, TURNING_SPEED, -1, 1, 0, 0, 0⟩ : MavCmd).param3 = 1 ↔
      0 ≤ degreesQ (normalizeYaw (radiansQ 200))) :=
  c4_yaw_normalization.2.2.2 (radiansQ 200) _ _ c4_yaw_normalization.2.2.1

theorem roundDouble_absorb : roundDouble ((2 : ℚ) ^ 60 - 2 * piQ) = (2 : ℚ) ^ 60 := by
  have ha_pos : (0 : ℚ) < (2 : ℚ) ^ 60 - 2 * piQ := by norm_num [piQ]
  have habs : |(2 : ℚ) ^ 60 - 2 * piQ| = (2 : ℚ) ^ 60 - 2 * piQ := abs_of_pos ha_pos
  have hlog : Int.log 2 |(2 : ℚ) ^ 60 - 2 * piQ| = 59 := by
    rw [habs]
    have h1 : (59 : ℤ) ≤ Int.log 2 ((2 : ℚ) ^ 60 - 2 * piQ) := by
      rw [← Int.zpow_le_iff_le_log (by norm_num) ha_pos]
      norm_num [piQ]
    have h2 : Int.log 2 ((2 : ℚ) ^ 60 - 2 * piQ) < 60 := by
      rw [← Int.lt_zpow_iff_log_lt (by norm_num) ha_pos]
      norm_num [piQ]
    omega
  have hfloor : ⌊((2 : ℚ) ^ 60 - 2 * piQ) / 2 ^ (7 : ℤ)⌋ = 2 ^ 53 - 1 := by
    rw [Int.floor_eq_iff]
    constructor
    · push_cast
      norm_num [piQ]
    · push_cast
      norm_num [piQ]
  have hrne : roundNearestEven (((2 : ℚ) ^ 60 - 2 * piQ) / 2 ^ (7 : ℤ)) = 2 ^ 53 := by
    rw [roundNearestEven, hfloor]
    rw [if_neg (by push_cast; norm_num [piQ]), if_pos (by push_cast; norm_num [piQ])]
    norm_num
  rw [roundDouble, if_neg (by norm_num [piQ] : ¬ ((2 : ℚ) ^ 60 - 2 * piQ = 0)), hlog, habs,
    if_neg (by norm_num [piQ] : ¬ ((2 : ℚ) ^ 60 - 2 * piQ < 0)),
    show (59 : ℤ) - 52 = 7 by norm_num, hrne]
  push_cast
  norm_num

theorem roundDouble_neg (x : ℚ) : roundDouble (-x) = -roundDouble x := by
  rcases lt_trichotomy x 0 with hx | hx | hx
  · rw [roundDouble, roundDouble, if_neg (neg_ne_zero.mpr (ne_of_lt hx)),
      if_neg (ne_of_lt hx), abs_neg, if_neg (by linarith : ¬ -x < 0), if_pos hx]
    ring
  · rw [hx]
    simp [roundDouble]
  · rw [roundDouble, roundDouble, if_neg (neg_ne_zero.mpr (ne_of_gt hx)),
      if_neg (ne_of_gt hx), abs_neg, if_pos (by linarith : -x < 0),
      if_neg (by linarith : ¬ x < 0)]
    ring

theorem fstepDown_fixed : fstepDown ((2 : ℚ) ^ 60) = (2 : ℚ) ^ 60 := by
  rw [fstepDown]
  exact roundDouble_absorb

theorem fstepUp_fixed : fstepUp (-(2 : ℚ) ^ 60) = -(2 : ℚ) ^ 60 := by
  rw [fstepUp, show -(2 : ℚ) ^ 60 + 2 * piQ = -((2 : ℚ) ^ 60 - 2 * piQ) by ring,
    roundDouble_neg, roundDouble_absorb]

/-- C10 counterexample: the normalization loops do NOT terminate for every
finite raw yaw delta as the source executes them.  At the double `2^60`
(reachable: `delta_yaw = desired_yaw - yaw` where `yaw` is read from the
ATTITUDE message's float32 field, whose finite magnitudes reach `3.4e38`,
e.g. `yaw = -2^60`), `2π` is below half an ulp, so the rounded loop body
`delta_yaw -= 2 * math.pi` returns its input unchanged and the guard
`delta_yaw > math.pi` never fails: no iteration count exits the first loop.
Symmetrically at `-2^60` the second loop's body `+= 2 * math.pi` absorbs and
its guard `< -math.pi` never fails. -/
theorem c10_float_absorption_diverges :
    ¬ (∃ n : ℕ, ¬ piQ < fstepDown^[n] ((2 : ℚ) ^ 60)) ∧
    ¬ (∃ n : ℕ, ¬ fstepUp^[n] (-(2 : ℚ) ^ 60) < -piQ) := by
  have hd : ∀ n : ℕ, fstepDown^[n] ((2 : ℚ) ^ 60) = (2 : ℚ) ^ 60 := by
    intro n
    induction n with
    | zero => rfl
    | succ k ih => rw [Function.iterate_succ_apply', ih, fstepDown_fixed]
  have hu : ∀ n : ℕ, fstepUp^[n] (-(2 : ℚ) ^ 60) = -(2 : ℚ) ^ 60 := by
    intro n
    induction n with
    | zero => rfl
    | succ k ih => rw [Function.iterate_succ_apply', ih, fstepUp_fixed]
  constructor
  · rintro ⟨n, hn⟩
    rw [hd n] at hn
    exact hn (by norm_num [piQ])
  · rintro ⟨n, hn⟩
    rw [hu n] at hn
    exact hn (by norm_num [piQ])

/-- C10 (amended): under exact arithmetic on the loop values — i.e. when
each `-= 2 * math.pi` / `+= 2 * math.pi` update lands exactly, as it does
throughout the doubles of spec-scale magnitude where the update is well
above the rounding granularity — both normalization loops of `Command.run`
terminate: for every rational raw delta there is a finite iteration count
after which the loop guard fails, and the loop's value is exactly that
finite iterate.  On the source's IEEE doubles this fails for large finite
deltas (at or above about `2^56`), where rounding absorbs the update and the
loop never exits (see the counterexample above). -/
theorem c10_normalization_loops_terminate :
    ∀ d : ℚ,
      (∃ m : ℕ, normDown d = stepDown^[m] d ∧ ¬ piQ < stepDown^[m] d) ∧
      (∃ n : ℕ, normUp (normDown d) = stepUp^[n] (normDown d) ∧
        ¬ stepUp^[n] (normDown d) < -piQ) := by
  have hDown : ∀ d : ℚ, ∃ m : ℕ, normDown d = stepDown^[m] d ∧ ¬ piQ < stepDown^[m] d := by
    intro d
    induction d using normDown.induct with
    | case1 d h ih =>
      obtain ⟨m, hm, hg⟩ := ih
      refine ⟨m + 1, ?_, ?_⟩
      · rw [normDown, if_pos h, hm, Function.iterate_succ_apply]
        rfl
      · rw [Function.iterate_succ_apply]
        exact hg
    | case2 d h =>
      exact ⟨0, by rw [normDown, if_neg h, Function.iterate_zero_apply], by
        rw [Function.iterate_zero_apply]; exact h⟩
  have hUp : ∀ d : ℚ, ∃ n : ℕ, normUp d = stepUp^[n] d ∧ ¬ stepUp^[n] d < -piQ := by
    intro d
    induction d using normUp.induct with
    | case1 d h ih =>
      obtain ⟨n, hn, hg⟩ := ih
      refine ⟨n + 1, ?_, ?_⟩
      · rw [normUp, if_pos h, hn, Function.iterate_succ_apply]
        rfl
      · rw [Function.iterate_succ_apply]
        exact hg
    | case2 d h =>
      exact ⟨0, by rw [normUp, if_neg h, Function.iterate_zero_apply], by
        rw [Function.iterate_zero_apply]; exact h⟩
  exact fun d => ⟨hDown d, hUp (normDown d)⟩

/-! ### Theorems: command decision -/

/-- Number of altitude-change commands among the commands sent in one call. -/
def countAltitude (cmds : List MavCmd) : ℕ :=
  (cmds.filter (fun c => c.command == MAV_CMD_CONDITION_CHANGE_ALT)).length

theorem commandRun_altitude (f : ℚ → ℚ → ℚ) (target : Position) (st : CommandState)
    (t : TelemetryData) (z : ℚ) (ht : t.z = some z)
    (hd : HEIGHT_TOLERANCE < |target.z - z|) :
    commandRun f target st (some t) =
      ⟨velocityUpdate st t, [altitudeCmd target], true,
        some (.changeAltitude (target.z - z))⟩ := by
  simp only [commandRun, ht]
  rw [if_pos hd]

theorem commandRun_no_z (f : ℚ → ℚ → ℚ) (target : Position) (st : CommandState)
    (t : TelemetryData) (ht : t.z = none) :
    commandRun f target st (some t) = commandRunYaw f target (velocityUpdate st t) t := by
  simp only [commandRun, ht]

theorem commandRun_in_tolerance (f : ℚ → ℚ → ℚ) (target : Position) (st : CommandState)
    (t : TelemetryData) (z : ℚ) (ht : t.z = some z)
    (hd : ¬ HEIGHT_TOLERANCE < |target.z - z|) :
    commandRun f target st (some t) = commandRunYaw f target (velocityUpdate st t) t := by
  simp only [commandRun, ht]
  rw [if_neg hd]

theorem commandRunYaw_cases (f : ℚ → ℚ → ℚ) (target : Position) (st : CommandState)
    (td : TelemetryData) :
    (commandRunYaw f target st td).cmds = [] ∨
    ∃ deg dir : ℚ, (commandRunYaw f target st td).cmds = [yawCmd deg dir] := by
  rw [commandRunYaw]
  rcases td.x with _ | x
  · exact Or.inl rfl
  rcases td.y with _ | y
  · exact Or.inl rfl
  rcases td.yaw with _ | w
  · exact Or.inl rfl
  dsimp only
  rcases hyd : yawDecision (f (target.y - y) (target.x - x) - w) with _ | ⟨cmd, deg⟩
  · exact Or.inl rfl
  · refine Or.inr ⟨degreesQ (normalizeYaw (f (target.y - y) (target.x - x) - w)),
      if 0 ≤ degreesQ (normalizeYaw (f (target.y - y) (target.x - x) - w)) then 1 else -1, ?_⟩
    rw [yawDecision] at hyd
    by_cases htol :
        ANGLE_TOLERANCE < |degreesQ (normalizeYaw (f (target.y - y) (target.x - x) - w))|
    · rw [if_pos htol] at hyd
      simp only [Option.some.injEq, Prod.mk.injEq] at hyd
      dsimp only
      rw [← hyd.1]
    · rw [if_neg htol] at hyd
      exact absurd hyd (by simp)

theorem commandRunYaw_no_altitude (f : ℚ → ℚ → ℚ) (target : Position) (st : CommandState)
    (td : TelemetryData) :
    countAltitude (commandRunYaw f target st td).cmds = 0 := by
  rcases commandRunYaw_cases f target st td with h | ⟨deg, dir, h⟩ <;> rw [countAltitude, h]
  · rfl
  · rfl

theorem commandRunYaw_length (f : ℚ → ℚ → ℚ) (target : Position) (st : CommandState)
    (td : TelemetryData) :
    (commandRunYaw f target st td).cmds.length ≤ 1 := by
  rcases commandRunYaw_cases f target st td with h | ⟨deg, dir, h⟩ <;> rw [h] <;> simp

/-- C1: every `Command.run` call sends at most one outbound command; and on a
snapshot whose altitude delta and yaw delta both exceed their tolerances,
exactly the altitude command is sent and the call returns before the yaw
check — the result does not depend on the `atan2` bearing computation at
all. -/
theorem c1_at_most_one_command_altitude_priority :
    ∀ (f : ℚ → ℚ → ℚ) (target : Position) (st : CommandState) (td : Option TelemetryData),
      (commandRun f target st td).cmds.length ≤ 1 ∧
      (∀ t z x y yaw, td = some t → t.z = some z → t.x = some x → t.y = some y →
        t.yaw = some yaw →
        HEIGHT_TOLERANCE < |target.z - z| →
        ANGLE_TOLERANCE < |degreesQ (normalizeYaw (f (target.y - y) (target.x - x) - yaw))| →
        (commandRun f target st td).cmds = [altitudeCmd target] ∧
        (∀ g : ℚ → ℚ → ℚ, commandRun g target st td = commandRun f target st td)) := by
  intro f target st td
  constructor
  · rcases td with _ | t
    · exact Nat.zero_le 1
    · rcases ht : t.z with _ | z
      · rw [commandRun_no_z f target st t ht]
        exact commandRunYaw_length f target _ t
      · by_cases hd : HEIGHT_TOLERANCE < |target.z - z|
        · rw [commandRun_altitude f target st t z ht hd]
          exact Nat.le_refl 1
        · rw [commandRun_in_tolerance f target st t z ht hd]
          exact commandRunYaw_length f target _ t
  · intro t z x y yaw htd htz htx hty htyaw hdz hdyaw
    subst htd
    exact ⟨by rw [commandRun_altitude f target st t z htz hdz],
      fun g => by rw [commandRun_altitude g target st t z htz hdz,
        commandRun_altitude f target st t z htz hdz]⟩

/-- Witness for C1 on a concrete snapshot where both the altitude delta
(2 m) and the yaw delta (about 57.3°, from bearing 0 and yaw 1 rad) are out
of tolerance: exactly the altitude command is sent. -/
theorem c1_at_most_one_command_altitude_priority_witness :
    (commandRun (fun _ _ => 0) ⟨0, 0, 10⟩ {}
        (some { x := some 0, y := some 0, z := some 8, yaw := some 1 })).cmds =
      [altitudeCmd ⟨0, 0, 10⟩] := by
  have hnorm : normalizeYaw ((0 : ℚ) - 1) = (0 : ℚ) - 1 := by
    rw [normalizeYaw, normDown, if_neg (by norm_num [piQ]), normUp, if_neg (by norm_num [piQ])]
  refine ((c1_at_most_one_command_altitude_priority (fun _ _ => 0) ⟨0, 0, 10⟩ {}
      (some { x := some 0, y := some 0, z := some 8, yaw := some 1 })).2
    _ 8 0 0 1 rfl rfl rfl rfl rfl (by norm_num [HEIGHT_TOLERANCE]) ?_).1
  show ANGLE_TOLERANCE < |degreesQ (normalizeYaw ((0 : ℚ) - 1))|
  rw [hnorm, abs_of_neg (by norm_num [degreesQ, piQ] : degreesQ ((0 : ℚ) - 1) < 0)]
  norm_num [ANGLE_TOLERANCE, degreesQ, piQ]

/-- C7: for a snapshot with altitude present, an altitude delta of exactly
0.5 m issues no altitude command (the comparison is strict), while a delta
of 0.51 m issues exactly one altitude command. -/
theorem c7_height_tolerance_boundary :
    ∀ (f : ℚ → ℚ → ℚ) (target : Position) (st : CommandState) (t : TelemetryData) (z : ℚ),
      t.z = some z →
      (|target.z - z| = 1 / 2 →
        countAltitude (commandRun f target st (some t)).cmds = 0) ∧
      (|target.z - z| = 51 / 100 →
        countAltitude (commandRun f target st (some t)).cmds = 1) := by
  intro f target st t z htz
  constructor
  · intro hb
    rw [commandRun_in_tolerance f target st t z htz (by rw [hb]; norm_num [HEIGHT_TOLERANCE])]
    exact commandRunYaw_no_altitude f target _ t
  · intro hb
    rw [commandRun_altitude f target st t z htz (by rw [hb]; norm_num [HEIGHT_TOLERANCE])]
    rfl

/-- Witness for C7 with target altitude 10 m: current altitude 9.5 m (delta
exactly 0.5) issues no altitude command; 9.49 m (delta 0.51) issues one. -/
theorem c7_height_tolerance_boundary_witness :
    countAltitude (commandRun (fun _ _ => 0) ⟨0, 0, 10⟩ {}
        (some { z := some (19 / 2) })).cmds = 0 ∧
    countAltitude (commandRun (fun _ _ => 0) ⟨0, 0, 10⟩ {}
        (some { z := some (949 / 100) })).cmds = 1 :=
  ⟨(c7_height_tolerance_boundary (fun _ _ => 0) ⟨0, 0, 10⟩ {} { z := some (19 / 2) }
      (19 / 2) rfl).1 (by norm_num),
   (c7_height_tolerance_boundary (fun _ _ => 0) ⟨0, 0, 10⟩ {} { z := some (949 / 100) }
      (949 / 100) rfl).2 (by norm_num)⟩

/-! ### Theorems: telemetry fusion -/

theorem telemetryRunAux_spec (msgs : List TlmMsg) :
    ∀ (att : Option AttitudeMsg) (at0 : ℕ) (pos : Option PositionMsg) (pt0 : ℕ)
      (td : TelemetryData),
      (∀ a, att = some a → at0 = a.time_boot_ms) →
      (∀ p, pos = some p → pt0 = p.time_boot_ms) →
      telemetryRunAux att at0 pos pt0 msgs = some td →
      ∃ (a : AttitudeMsg) (p : PositionMsg),
        (TlmMsg.attitude a ∈ msgs ∨ att = some a) ∧
        (TlmMsg.position p ∈ msgs ∨ pos = some p) ∧
        td = buildTelemetry a p (max a.time_boot_ms p.time_boot_ms) := by
  induction msgs with
  | nil =>
    intro att at0 pos pt0 td _ _ h
    rw [telemetryRunAux] at h
    exact absurd h (by simp)
  | cons msg rest ih =>
    intro att at0 pos pt0 td hA hP h
    cases msg with
    | attitude m =>
      rcases pos with _ | p
      · rw [telemetryRunAux] at h
        obtain ⟨a, p, ha, hp, htd⟩ := ih (some m) m.time_boot_ms none pt0 td
          (fun a ha => by injection ha with ha; rw [ha]) (fun p hp => by simp at hp) h
        refine ⟨a, p, ?_, ?_, htd⟩
        · rcases ha with hmem | heq
          · exact Or.inl (List.mem_cons_of_mem _ hmem)
          · injection heq with heq
            subst heq
            exact Or.inl (List.mem_cons_self _ _)
        · rcases hp with hmem | heq
          · exact Or.inl (List.mem_cons_of_mem _ hmem)
          · exact absurd heq (by simp)
      · rw [telemetryRunAux] at h
        injection h with h
        refine ⟨m, p, Or.inl (List.mem_cons_self _ _), Or.inr rfl, ?_⟩
        rw [← h, hP p rfl]
    | position m =>
      rcases att with _ | a
      · rw [telemetryRunAux] at h
        obtain ⟨a, p, ha, hp, htd⟩ := ih none at0 (some m) m.time_boot_ms td
          (fun a ha => by simp at ha) (fun p hp => by injection hp with hp; rw [hp]) h
        refine ⟨a, p, ?_, ?_, htd⟩
        · rcases ha with hmem | heq
          · exact Or.inl (List.mem_cons_of_mem _ hmem)
          · exact absurd heq (by simp)
        · rcases hp with hmem | heq
          · exact Or.inl (List.mem_cons_of_mem _ hmem)
          · injection heq with heq
            subst heq
            exact Or.inl (List.mem_cons_self _ _)
      · rw [telemetryRunAux] at h
        injection h with h
        refine ⟨a, m, Or.inr rfl, Or.inl (List.mem_cons_self _ _), ?_⟩
        rw [← h, hA a rfl]

/-- C5: whenever `Telemetry.run` returns a snapshot, that snapshot is built
from an attitude message and a position message received during the call,
and its `time_since_boot` equals the maximum of those two messages'
timestamps. -/
theorem c5_snapshot_timestamp_is_max (msgs : List TlmMsg) (td : TelemetryData)
    (h : telemetryRun msgs = some td) :
    ∃ (a : AttitudeMsg) (p : PositionMsg),
      TlmMsg.attitude a ∈ msgs ∧ TlmMsg.position p ∈ msgs ∧
      td = buildTelemetry a p (max a.time_boot_ms p.time_boot_ms) ∧
      td.time_since_boot = some (max a.time_boot_ms p.time_boot_ms) := by
  obtain ⟨a, p, ha, hp, htd⟩ := telemetryRunAux_spec msgs none 0 none 0 td
    (fun a ha => by simp at ha) (fun p hp => by simp at hp) h
  refine ⟨a, p, ?_, ?_, htd, by rw [htd]; rfl⟩
  · rcases ha with hmem | heq
    · exact hmem
    · exact absurd heq (by simp)
  · rcases hp with hmem | heq
    · exact hmem
    · exact absurd heq (by simp)

/-- Witness for C5: an attitude message at t=10 ms and a position message at
t=20 ms fuse into a snapshot stamped 20 ms. -/
theorem c5_snapshot_timestamp_is_max_witness :
    ∃ (a : AttitudeMsg) (p : PositionMsg),
      TlmMsg.attitude a ∈
        [TlmMsg.attitude ⟨10, 1, 2, 3, 4, 5, 6⟩, TlmMsg.position ⟨20, 7, 8, 9, 10, 11, 12⟩] ∧
      TlmMsg.position p ∈
        [TlmMsg.attitude ⟨10, 1, 2, 3, 4, 5, 6⟩, TlmMsg.position ⟨20, 7, 8, 9, 10, 11, 12⟩] ∧
      buildTelemetry ⟨10, 1, 2, 3, 4, 5, 6⟩ ⟨20, 7, 8, 9, 10, 11, 12⟩ (max 10 20) =
        buildTelemetry a p (max a.time_boot_ms p.time_boot_ms) ∧
      (buildTelemetry ⟨10, 1, 2, 3, 4, 5, 6⟩ ⟨20, 7, 8, 9, 10, 11, 12⟩
        (max 10 20)).time_since_boot = some (max a.time_boot_ms p.time_boot_ms) :=
  c5_snapshot_timestamp_is_max
    [TlmMsg.attitude ⟨10, 1, 2, 3, 4, 5, 6⟩, TlmMsg.position ⟨20, 7, 8, 9, 10, 11, 12⟩]
    (buildTelemetry ⟨10, 1, 2, 3, 4, 5, 6⟩ ⟨20, 7, 8, 9, 10, 11, 12⟩ (max 10 20)) rfl

theorem telemetryRunAux_all_attitude (msgs : List TlmMsg) :
    ∀ (att : Option AttitudeMsg) (at0 pt0 : ℕ),
      (∀ m ∈ msgs, m.isAttitude = true) →
      telemetryRunAux att at0 none pt0 msgs = none := by
  induction msgs with
  | nil =>
    intro att at0 pt0 _
    rw [telemetryRunAux]
  | cons msg rest ih =>
    intro att at0 pt0 hall
    cases msg with
    | attitude m =>
      rw [telemetryRunAux]
      exact ih (some m) m.time_boot_ms pt0 (fun m hm => hall m (List.mem_cons_of_mem _ hm))
    | position m =>
      exact absurd (hall (.position m) (List.mem_cons_self _ _)) (by simp [TlmMsg.isAttitude])

theorem telemetryRunAux_all_position (msgs : List TlmMsg) :
    ∀ (pos : Option PositionMsg) (at0 pt0 : ℕ),
      (∀ m ∈ msgs, m.isPosition = true) →
      telemetryRunAux none at0 pos pt0 msgs = none := by
  induction msgs with
  | nil =>
    intro pos at0 pt0 _
    rw [telemetryRunAux]
  | cons msg rest ih =>
    intro pos at0 pt0 hall
    cases msg with
    | position m =>
      rw [telemetryRunAux]
      exact ih (some m) at0 m.time_boot_ms (fun m hm => hall m (List.mem_cons_of_mem _ hm))
    | attitude m =>
      exact absurd (hall (.attitude m) (List.mem_cons_self _ _)) (by simp [TlmMsg.isPosition])

/-- C6: if only one kind of message (all attitude, or all position) arrives
within the time budget, `Telemetry.run` returns no snapshot — a normal
failure, not an exception — and because every call starts with both
call-local slots empty (`telemetryRun msgs2 = telemetryRunAux none 0 none 0
msgs2` for every later call), the partially received message is discarded
and a later call's result depends only on its own messages. -/
theorem c6_partial_cycle_discarded (msgs : List TlmMsg)
    (h : (∀ m ∈ msgs, m.isAttitude = true) ∨ (∀ m ∈ msgs, m.isPosition = true)) :
    telemetryRun msgs = none ∧
    (∀ msgs2 : List TlmMsg, telemetryRun msgs2 = telemetryRunAux none 0 none 0 msgs2) := by
  refine ⟨?_, fun msgs2 => rfl⟩
  rcases h with h | h
  · exact telemetryRunAux_all_attitude msgs none 0 0 h
  · exact telemetryRunAux_all_position msgs none 0 0 h

/-- Witness for C6: a lone attitude message yields no snapshot. -/
theorem c6_partial_cycle_discarded_witness :
    telemetryRun [TlmMsg.attitude ⟨10, 1, 2, 3, 4, 5, 6⟩] = none ∧
    (∀ msgs2 : List TlmMsg, telemetryRun msgs2 = telemetryRunAux none 0 none 0 msgs2) :=
  c6_partial_cycle_discarded [TlmMsg.attitude ⟨10, 1, 2, 3, 4, 5, 6⟩]
    (Or.inl (by intro m hm; simp at hm; rw [hm]; rfl))

/-! ### Theorems: command worker shutdown -/

/-- C9: once the sentinel `None` is dequeued, the command worker's loop
exits: for every queue content consisting of sentinel-free items `pre`, then
the sentinel, then arbitrary items `post`, the commands sent and statuses
emitted are exactly those from processing `pre` — no item after the sentinel
is processed or produces a command, whatever `post` is. -/
theorem c9_sentinel_stops_worker (f : ℚ → ℚ → ℚ) (target : Position) (st : CommandState)
    (pre post : List (Option TelemetryData)) (hpre : none ∉ pre) :
    commandWorkerLoop f target st (pre ++ none :: post) =
      commandWorkerLoop f target st pre := by
  induction pre generalizing st with
  | nil =>
    rw [List.nil_append, commandWorkerLoop, commandWorkerLoop]
  | cons item pre ih =>
    rcases item with _ | td
    · exact absurd (List.mem_cons_self _ _) hpre
    · rw [List.cons_append, commandWorkerLoop, commandWorkerLoop,
        ih _ (fun hmem => hpre (List.mem_cons_of_mem _ hmem))]

/-- Witness for C9: with one real item before the sentinel and one after,
the worker's output equals that for the single item before the sentinel. -/
theorem c9_sentinel_stops_worker_witness :
    commandWorkerLoop (fun _ _ => 0) ⟨0, 0, 10⟩ {}
        [some { z := some 8 }, none, some { z := some 0 }] =
      commandWorkerLoop (fun _ _ => 0) ⟨0, 0, 10⟩ {} [some { z := some 8 }] :=
  c9_sentinel_stops_worker (fun _ _ => 0) ⟨0, 0, 10⟩ {}
    [some { z := some 8 }] [some { z := some 0 }] (by simp)

end Bootcamp
